import Mathlib

/-!
Verification of the Mega-Sena lottery-pool server (`src/unnamed/part_001`).

The development shallowly embeds the relevant JavaScript functions as Lean
definitions, keeping the source names: the hit matcher (`getGameStats`,
`sortGameStats`, `getMaxHits`, `getHitAchievement`), the number parser
(`parseNumbers`), the draw poller (`hasPendingBoloes`, `storeDraw`,
`notifySubscribersForDraw`, `pollOnce`), the subscriber lifecycle of the
subscribe/confirm routes, and the transactional `insertGames`.
Database tables are lists of row structures; external effects
(HTTP fetch, SMTP send, SQLite insert errors) are explicit parameters.
-/

set_option maxRecDepth 20000

/-! ## Data model

`games` rows store `numbers` as a JSON-serialised array of two-character
strings; the embedding keeps the deserialised `List String` directly
(`JSON.parse`/`JSON.stringify` are mutually inverse on these values).
`id` is the SQLite `INTEGER PRIMARY KEY AUTOINCREMENT` column. -/

structure Game where
  id : Int
  numbers : List String
deriving DecidableEq

/-- Per-game statistics record built by `getGameStats`
(`part_001:221-234`): the JS object `{game, numbers, hitCount, size}`. -/
structure GameStat where
  game : Game
  numbers : List String
  hitCount : Nat
  size : Nat
deriving DecidableEq

/-- `getGameStats(games, drawNumbersSet)` (`part_001:221-234`).
For each game it parses the stored numbers and counts how many of them are
members of `drawNumbersSet` (a JS `Set`, modelled as a `Finset String`);
when the draw set is `null` (`none`) the hit count is `0`. -/
def getGameStats (games : List Game) (drawNumbersSet : Option (Finset String)) :
    List GameStat :=
  games.map (fun game =>
    let numbers := game.numbers
    let hitCount :=
      match drawNumbersSet with
      | some s => (numbers.filter (fun num => decide (num ∈ s))).length
      | none => 0
    { game := game, numbers := numbers, hitCount := hitCount,
      size := numbers.length })

/-- The comparator passed to `Array.prototype.sort` in `sortGameStats`
(`part_001:236-246`): negative means `a` sorts before `b`.
JS number subtraction on these small integers is exact, so `Int` is a
faithful model. -/
def statCmp (hasDraw : Bool) (a b : GameStat) : Int :=
  if hasDraw = true ∧ a.hitCount ≠ b.hitCount then
    (b.hitCount : Int) - (a.hitCount : Int)
  else if a.size ≠ b.size then
    (b.size : Int) - (a.size : Int)
  else
    b.game.id - a.game.id

/-- `sortGameStats(stats, hasDraw)` (`part_001:236-246`): `[...stats]` is
sorted with `statCmp`.  `Array.prototype.sort` returns a list that is
sorted with respect to the (consistent, total) comparator; we model it
with insertion sort over the relation `statCmp hasDraw a b ≤ 0`. -/
def sortGameStats (stats : List GameStat) (hasDraw : Bool) : List GameStat :=
  List.insertionSort (fun a b => statCmp hasDraw a b ≤ 0) stats

/-- `getMaxHits(stats)` (`part_001:248-250`): `reduce` with `Math.max`
and initial value `0`. -/
def getMaxHits (stats : List GameStat) : Nat :=
  stats.foldl (fun mx g => max mx g.hitCount) 0

/-- The achievement object returned by `getHitAchievement`
(`part_001:252-281`). -/
structure HitAchievement where
  label : String
  title : String
  emoji : String
  highlight : String
  emphasis : String
deriving DecidableEq

/-- `getHitAchievement(hitCount)` (`part_001:252-281`). -/
def getHitAchievement (hitCount : Nat) : Option HitAchievement :=
  if hitCount = 6 then
    some { label := "sena", title := "Você acertou a sena!", emoji := "🏆",
           highlight := "background:#ecfdf3;border:2px solid #22c55e;",
           emphasis := "font-size:16px;font-weight:700;" }
  else if hitCount = 5 then
    some { label := "quina", title := "Você acertou a quina!", emoji := "🥳",
           highlight := "background:#fef9c3;border:2px solid #eab308;",
           emphasis := "font-size:15px;font-weight:700;" }
  else if hitCount = 4 then
    some { label := "quadra", title := "Você acertou a quadra!", emoji := "🎉",
           highlight := "background:#fffbeb;border:2px solid #f59e0b;",
           emphasis := "font-size:14px;font-weight:600;" }
  else
    none

/-! ## C1: hit count is intersection cardinality -/

theorem getGameStats_mem_hitCount (games : List Game) (D : Finset String)
    (st : GameStat) (hst : st ∈ getGameStats games (some D)) :
    st.hitCount = (st.numbers.filter (fun num => decide (num ∈ D))).length := by
  simp only [getGameStats, List.mem_map] at hst
  obtain ⟨g, -, rfl⟩ := hst
  rfl

/-- C1.  For every draw set `D` and every game whose numbers are duplicate
free, the hit count computed by `getGameStats` equals the cardinality of the
intersection of the game's numbers with `D`; moreover it is invariant under
permutation of the game's number list (and `D`, as a `Finset`, carries no
order at all). -/
theorem c1_hitCount_is_intersection_card (games : List Game) (D : Finset String)
    (st : GameStat) (hst : st ∈ getGameStats games (some D))
    (hnd : st.numbers.Nodup) :
    st.hitCount = (st.numbers.toFinset ∩ D).card ∧
    ∀ l : List String, l.Perm st.numbers →
      (l.filter (fun num => decide (num ∈ D))).length = st.hitCount := by
  have hc := getGameStats_mem_hitCount games D st hst
  constructor
  · rw [hc]
    have hfil : (st.numbers.filter (fun num => decide (num ∈ D))).toFinset
        = st.numbers.toFinset ∩ D := by
      ext x
      simp [List.mem_filter, Finset.mem_inter]
    rw [← hfil]
    exact (List.toFinset_card_of_nodup (hnd.filter _)).symm
  · intro l hl
    rw [hc]
    exact (hl.filter _).length_eq

/-! ## C2: sort order of game statistics -/

/-- The ordering described by the specification for `sortGameStats`
("hit count descending, only when a draw exists, then game size descending,
then insertion order descending, i.e. highest game id first").  This
definition follows the spec's words; the source comparator is `statCmp`. -/
def claimSortLe (hasDraw : Bool) (a b : GameStat) : Prop :=
  if hasDraw = true then
    b.hitCount < a.hitCount ∨ (b.hitCount = a.hitCount ∧
      (b.size < a.size ∨ (b.size = a.size ∧ b.game.id ≤ a.game.id)))
  else
    b.size < a.size ∨ (b.size = a.size ∧ b.game.id ≤ a.game.id)

theorem statCmp_nonpos_iff (hasDraw : Bool) (a b : GameStat) :
    statCmp hasDraw a b ≤ 0 ↔ claimSortLe hasDraw a b := by
  unfold statCmp claimSortLe
  cases hasDraw <;> simp <;> split_ifs <;> simp_all <;> omega

theorem claimSortLe_total (hasDraw : Bool) (a b : GameStat) :
    claimSortLe hasDraw a b ∨ claimSortLe hasDraw b a := by
  unfold claimSortLe
  cases hasDraw <;> simp <;> omega

theorem claimSortLe_trans (hasDraw : Bool) (a b c : GameStat)
    (hab : claimSortLe hasDraw a b) (hbc : claimSortLe hasDraw b c) :
    claimSortLe hasDraw a c := by
  unfold claimSortLe at *
  cases hasDraw <;> simp_all <;> omega

/-- Draw set for the spec's worked examples: numbers 01 to 06. -/
def exDrawSet : Finset String := {"01", "02", "03", "04", "05", "06"}

/-- The spec's sorting example: games g1..g4 with sizes 6, 8, 6, 10 and hit
counts 6, 4, 4, 3 against `exDrawSet`, listed in the order the code reads
them from the database (`ORDER BY id DESC`). -/
def exGames : List Game :=
  [ ⟨4, ["01", "02", "03", "13", "14", "15", "16", "17", "18", "19"]⟩,
    ⟨3, ["01", "02", "03", "04", "11", "12"]⟩,
    ⟨2, ["01", "02", "03", "04", "07", "08", "09", "10"]⟩,
    ⟨1, ["01", "02", "03", "04", "05", "06"]⟩ ]

def exStats : List GameStat := getGameStats exGames (some exDrawSet)

/-- C2.  `sortGameStats` returns a permutation of its input that is
pairwise ordered by: hit count descending (that key only applies when
`hasDraw` is true), then size descending, then game id descending.
On the spec's example (hit counts 6, 4, 4, 3 and sizes 6, 8, 6, 10 for
games g1..g4) the resulting order is g1, g2, g3, g4: in particular of the
two games with 4 hits the larger (size 8) one sorts before the smaller
(size 6) one. -/
theorem c2_sortGameStats_order (stats : List GameStat) (hasDraw : Bool) :
    (sortGameStats stats hasDraw).Perm stats ∧
    (sortGameStats stats hasDraw).Pairwise (claimSortLe hasDraw) ∧
    exStats.map (fun st => (st.game.id, st.hitCount, st.size)) =
      [(4, 3, 10), (3, 4, 6), (2, 4, 8), (1, 6, 6)] ∧
    (sortGameStats exStats true).map (fun st => st.game.id) = [1, 2, 3, 4] := by
  refine ⟨List.perm_insertionSort _ stats, ?_, by decide, by decide⟩
  haveI : IsTotal GameStat (fun a b => statCmp hasDraw a b ≤ 0) :=
    ⟨fun a b => by
      rcases claimSortLe_total hasDraw a b with h | h
      · exact Or.inl ((statCmp_nonpos_iff hasDraw a b).mpr h)
      · exact Or.inr ((statCmp_nonpos_iff hasDraw b a).mpr h)⟩
  haveI : IsTrans GameStat (fun a b => statCmp hasDraw a b ≤ 0) :=
    ⟨fun a b c hab hbc => (statCmp_nonpos_iff hasDraw a c).mpr
      (claimSortLe_trans hasDraw a b c
        ((statCmp_nonpos_iff hasDraw a b).mp hab)
        ((statCmp_nonpos_iff hasDraw b c).mp hbc))⟩
  have hs := List.sorted_insertionSort (fun a b => statCmp hasDraw a b ≤ 0) stats
  exact hs.imp (fun h => (statCmp_nonpos_iff hasDraw _ _).mp h)

/-- Concrete instance of C1: the game with numbers 01, 02, 07 scores 2 hits
against the 01-06 draw set, which is the cardinality of the intersection. -/
theorem c1_hitCount_witness :
    (({ game := ⟨1, ["01", "02", "07"]⟩, numbers := ["01", "02", "07"],
        hitCount := 2, size := 3 } : GameStat)).hitCount =
      ((["01", "02", "07"] : List String).toFinset ∩ exDrawSet).card :=
  (c1_hitCount_is_intersection_card [⟨1, ["01", "02", "07"]⟩] exDrawSet
    _ (by decide) (by decide)).1

/-! ## C3: achievement tier from the maximum hit count -/

theorem foldl_max_init_le (l : List GameStat) :
    ∀ m, m ≤ l.foldl (fun mx g => max mx g.hitCount) m := by
  induction l with
  | nil => intro m; exact le_refl m
  | cons a l ih =>
    intro m
    exact le_trans (le_max_left m a.hitCount) (ih _)

theorem getMaxHits_le (stats : List GameStat) (m : Nat) :
    ∀ st ∈ stats, st.hitCount ≤ stats.foldl (fun mx g => max mx g.hitCount) m := by
  induction stats generalizing m with
  | nil => intro st h; cases h
  | cons a l ih =>
    intro st h
    rcases List.mem_cons.mp h with rfl | h
    · exact le_trans (le_max_right m st.hitCount) (foldl_max_init_le l _)
    · exact ih (max m a.hitCount) st h

theorem getMaxHits_attained (stats : List GameStat) (m : Nat) :
    stats.foldl (fun mx g => max mx g.hitCount) m = m ∨
    ∃ st ∈ stats, stats.foldl (fun mx g => max mx g.hitCount) m = st.hitCount := by
  induction stats generalizing m with
  | nil => exact Or.inl rfl
  | cons a l ih =>
    rcases ih (max m a.hitCount) with h | ⟨st, hst, h⟩
    · simp only [List.foldl_cons, h]
      rcases Nat.le_total m a.hitCount with hle | hle
      · exact Or.inr ⟨a, List.mem_cons_self a l, max_eq_right hle⟩
      · exact Or.inl (max_eq_left hle)
    · exact Or.inr ⟨st, List.mem_cons_of_mem a hst, h⟩

/-- C3.  `getMaxHits` is the maximum hit count over the stats list
(an upper bound, and attained unless it is the initial value 0), and the
achievement derived from it is exactly: 6 yields the label "sena",
5 yields "quina", 4 yields "quadra", any other value yields none. -/
theorem c3_achievement_from_max_hits (stats : List GameStat) :
    (∀ st ∈ stats, st.hitCount ≤ getMaxHits stats) ∧
    (getMaxHits stats = 0 ∨ ∃ st ∈ stats, getMaxHits stats = st.hitCount) ∧
    (getHitAchievement (getMaxHits stats)).map (fun a => a.label) =
      (if getMaxHits stats = 6 then some "sena"
       else if getMaxHits stats = 5 then some "quina"
       else if getMaxHits stats = 4 then some "quadra"
       else none) := by
  refine ⟨getMaxHits_le stats 0, getMaxHits_attained stats 0, ?_⟩
  unfold getHitAchievement
  split_ifs <;> simp

/-- Concrete instance of C3 at the worked example: the best game hits all
6 numbers and the pool's achievement is the "sena" label. -/
theorem c3_achievement_witness :
    (∀ st ∈ exStats, st.hitCount ≤ getMaxHits exStats) ∧
    (getMaxHits exStats = 0 ∨ ∃ st ∈ exStats, getMaxHits exStats = st.hitCount) ∧
    (getHitAchievement (getMaxHits exStats)).map (fun a => a.label) =
      (if getMaxHits exStats = 6 then some "sena"
       else if getMaxHits exStats = 5 then some "quina"
       else if getMaxHits exStats = 4 then some "quadra"
       else none) :=
  c3_achievement_from_max_hits exStats

/-! ## Store model for the poller and notifier

SQLite tables are lists of row structures, one structure per table
(schema in `initDb`, `part_001:80-123`).  The ambient clock
(`new Date().toISOString()`), the fetched draw and the per-subscriber mail
send outcome are explicit parameters. -/

/-- A `boloes` row. -/
structure Bolao where
  id : String
  name : String
  draw_number : Nat
deriving DecidableEq

/-- A `draws` row. -/
structure DrawRow where
  number : Nat
  numbers : List String
  draw_date : String
  updated_at : String
deriving DecidableEq

/-- A draw fetched from the external API (result of `fetchLatestDraw`,
`part_001:651-667`). -/
structure Draw where
  number : Nat
  numbers : List String
  drawDate : String
deriving DecidableEq

/-- A `bolao_subscribers` row. -/
structure SubscriberRow where
  id : Nat
  bolao_id : String
  email : String
  status : String
  verification_token : Option String
  created_at : String
  verified_at : Option String
  last_notified_draw : Option Nat
deriving DecidableEq

/-- The persistent store: the three tables the poller touches. -/
structure Store where
  boloes : List Bolao
  draws : List DrawRow
  subscribers : List SubscriberRow
deriving DecidableEq

/-- `hasPendingBoloes()` (`part_001:706-715`): the `LEFT JOIN` row with
`draws.number IS NULL` exists exactly when some bolão's target draw number
has no stored draw (`draws.number` is the non-null primary key). -/
def hasPendingBoloes (st : Store) : Bool :=
  st.boloes.any (fun b => !(st.draws.any (fun d => d.number == b.draw_number)))

/-- `storeDraw(draw)` (`part_001:693-704`): `INSERT ... ON CONFLICT(number)
DO UPDATE` keyed on the draw number, which is the table's primary key:
if a row with the number exists it is overwritten in place, otherwise a new
row is appended.  `now` is the timestamp the function reads from the clock
and writes into `updated_at`. -/
def storeDraw (draw : Draw) (now : String) : List DrawRow → List DrawRow
  | [] => [{ number := draw.number, numbers := draw.numbers,
             draw_date := draw.drawDate, updated_at := now }]
  | r :: rest =>
      if r.number == draw.number then
        { number := draw.number, numbers := draw.numbers,
          draw_date := draw.drawDate, updated_at := now } :: rest
      else r :: storeDraw draw now rest

/-- The condition on a single row in the subscriber query of
`notifySubscribersForDraw` (`part_001:762-769`): `status = 'verified' AND
(last_notified_draw IS NULL OR last_notified_draw < ?)`. -/
def notifyEligible (n : Nat) (s : SubscriberRow) : Bool :=
  s.status == "verified" &&
    (match s.last_notified_draw with
     | none => true
     | some k => decide (k < n))

/-- The subscriber query of `notifySubscribersForDraw`
(`part_001:762-769`): rows of the given bolão that are verified and not
yet notified for draw `n`. -/
def pendingSubscribersQuery (rows : List SubscriberRow) (bolaoId : String)
    (n : Nat) : List SubscriberRow :=
  rows.filter (fun s => s.bolao_id == bolaoId && notifyEligible n s)

/-- The row assignment performed by the `UPDATE` after a successful send:
`last_notified_draw = n`, all other columns untouched. -/
def setNotified (n : Nat) (r : SubscriberRow) : SubscriberRow :=
  { r with last_notified_draw := some n }

/-- The `UPDATE bolao_subscribers SET last_notified_draw = ? WHERE id = ?`
statement (`part_001:807-810`). -/
def markNotified (n : Nat) (sid : Nat) (rows : List SubscriberRow) :
    List SubscriberRow :=
  rows.map (fun r => if r.id == sid then setNotified n r else r)

/-- The inner `for (const subscriber of subscribers)` loop of
`notifySubscribersForDraw` (`part_001:792-817`): each iteration attempts a
mail send (outcome given by the `sendOk` oracle); on success the row is
marked notified, on failure the `catch` logs and the loop continues, leaving
the table untouched for that subscriber. -/
def notifyLoop (n : Nat) (sendOk : SubscriberRow → Bool) :
    List SubscriberRow → List SubscriberRow → List SubscriberRow
  | [], rows => rows
  | s :: rest, rows =>
      notifyLoop n sendOk rest
        (if sendOk s then markNotified n s.id rows else rows)

/-- `notifySubscribersForDraw(draw)` (`part_001:753-822`): for each bolão
whose target equals the draw's number, query the pending verified
subscribers and run the send loop over them. -/
def notifySubscribersForDraw (draw : Draw) (sendOk : SubscriberRow → Bool)
    (st : Store) : Store :=
  let matching := st.boloes.filter (fun b => b.draw_number == draw.number)
  { st with
    subscribers := matching.foldl
      (fun rows b =>
        notifyLoop draw.number sendOk
          (pendingSubscribersQuery rows b.id draw.number) rows)
      st.subscribers }

/-- The set of subscribers the notification step selects for a draw
number `n`: the union over the matching bolões of the pending-subscriber
query, on the state at the start of the step. -/
def selectedSubscribers (st : Store) (n : Nat) : List SubscriberRow :=
  (st.boloes.filter (fun b => b.draw_number == n)).flatMap
    (fun b => pendingSubscribersQuery st.subscribers b.id n)

/-- One tick of the `poll` closure in `startPolling` (`part_001:717-733`):
check for pending bolões, return at once if there are none, otherwise
fetch the latest draw (the fetched value and the clock are parameters),
store it and notify.  The first component counts the external fetches the
tick performs. -/
def pollOnce (fetched : Draw) (now : String) (sendOk : SubscriberRow → Bool)
    (st : Store) : Nat × Store :=
  if hasPendingBoloes st then
    (1, notifySubscribersForDraw fetched sendOk
          { st with draws := storeDraw fetched now st.draws })
  else
    (0, st)

/-! ## C4: the tick fetches only when a pool's draw is missing -/

theorem hasPendingBoloes_eq_false_iff (st : Store) :
    hasPendingBoloes st = false ↔
      ∀ b ∈ st.boloes, ∃ d ∈ st.draws, d.number = b.draw_number := by
  unfold hasPendingBoloes
  simp only [List.any_eq_false, Bool.not_eq_true', List.any_eq_true,
    beq_iff_eq, not_not, Bool.not_eq_false]
  push_neg
  exact Iff.rfl

/-- C4.  A poll tick performs zero external fetches exactly when every
bolão's target draw number has a stored draw; in that case the tick
returns at once with the store unchanged, and otherwise it performs
exactly one fetch. -/
theorem c4_poll_fetches_iff_pending (fetched : Draw) (now : String)
    (sendOk : SubscriberRow → Bool) (st : Store) :
    ((pollOnce fetched now sendOk st).1 = 0 ↔
      ∀ b ∈ st.boloes, ∃ d ∈ st.draws, d.number = b.draw_number) ∧
    ((∀ b ∈ st.boloes, ∃ d ∈ st.draws, d.number = b.draw_number) →
      pollOnce fetched now sendOk st = (0, st)) ∧
    ((¬ ∀ b ∈ st.boloes, ∃ d ∈ st.draws, d.number = b.draw_number) →
      (pollOnce fetched now sendOk st).1 = 1) := by
  have hiff := hasPendingBoloes_eq_false_iff st
  by_cases h : hasPendingBoloes st = true
  · have hn : ¬ ∀ b ∈ st.boloes, ∃ d ∈ st.draws, d.number = b.draw_number := by
      intro hall
      have hfalse := hiff.mpr hall
      rw [h] at hfalse
      cases hfalse
    refine ⟨?_, fun hall => absurd hall hn, fun _ => ?_⟩
    · simp [pollOnce, h, hn]
    · simp [pollOnce, h]
  · have hf : hasPendingBoloes st = false := by
      cases hb : hasPendingBoloes st
      · rfl
      · exact absurd hb h
    have hall := hiff.mp hf
    refine ⟨?_, fun _ => ?_, fun hc => absurd hall hc⟩
    · simp only [pollOnce, hf, Bool.false_eq_true, if_false]
      exact iff_of_true trivial hall
    · simp [pollOnce, hf]

/-- A store whose single bolão targets draw 2700, which is already stored. -/
def c4Store : Store :=
  { boloes := [⟨"aabbccddee", "", 2700⟩],
    draws := [⟨2700, ["04", "08", "15", "16", "23", "42"], "01/01/2024", "t0"⟩],
    subscribers := [] }

/-- Concrete instance of C4: with every target draw stored, the tick is a
no-op with zero fetches. -/
theorem c4_poll_witness :
    pollOnce ⟨2701, ["01", "02", "03", "04", "05", "06"], "02/01/2024"⟩ "t1"
      (fun _ => true) c4Store = (0, c4Store) :=
  (c4_poll_fetches_iff_pending _ "t1" (fun _ => true) c4Store).2.1 (by decide)

/-! ## C5: repeated `storeDraw` with identical input -/

/-- Overwriting a draw twice equals overwriting it once with the second
call's timestamp. -/
theorem storeDraw_absorb (d : Draw) (t1 t2 : String) (tbl : List DrawRow) :
    storeDraw d t2 (storeDraw d t1 tbl) = storeDraw d t2 tbl := by
  induction tbl with
  | nil => simp [storeDraw]
  | cons r rest ih =>
    by_cases h : (r.number == d.number) = true
    · simp [storeDraw, h]
    · simp only [storeDraw, h, Bool.false_eq_true, if_false, if_neg]
      rw [ih]

/-- The projection of a draw row that omits the bookkeeping timestamp. -/
def drawRowData (r : DrawRow) : Nat × List String × String :=
  (r.number, r.numbers, r.draw_date)

theorem storeDraw_data_time_irrelevant (d : Draw) (t t' : String)
    (tbl : List DrawRow) :
    (storeDraw d t tbl).map drawRowData = (storeDraw d t' tbl).map drawRowData := by
  induction tbl with
  | nil => simp [storeDraw, drawRowData]
  | cons r rest ih =>
    by_cases h : (r.number == d.number) = true
    · simp [storeDraw, h, drawRowData]
    · simp only [storeDraw, h, Bool.false_eq_true, if_false, List.map_cons]
      rw [ih]

/-- C5 counterexample.  Calling `storeDraw` twice with the identical draw
is not a no-op on the stored row: the second call, made at a later clock
reading, rewrites `updated_at`, so the stored state differs. -/
theorem c5_counterexample :
    storeDraw ⟨2700, ["04", "08", "15", "16", "23", "42"], "01/01/2024"⟩
        "2024-01-02T00:00:00.000Z"
        (storeDraw ⟨2700, ["04", "08", "15", "16", "23", "42"], "01/01/2024"⟩
          "2024-01-01T00:00:00.000Z" []) ≠
      storeDraw ⟨2700, ["04", "08", "15", "16", "23", "42"], "01/01/2024"⟩
        "2024-01-01T00:00:00.000Z" [] := by
  decide

/-- C5 (amended).  A second `storeDraw` with the identical draw leaves the
draw number, numbers and draw date of every stored row unchanged and
changes at most `updated_at`: the resulting table equals that of a single
call made at the second call's timestamp, and when the two calls read the
same clock value the second call is a full no-op. -/
theorem c5_storeDraw_idempotent_amended (d : Draw) (t1 t2 : String)
    (tbl : List DrawRow) :
    storeDraw d t2 (storeDraw d t1 tbl) = storeDraw d t2 tbl ∧
    storeDraw d t1 (storeDraw d t1 tbl) = storeDraw d t1 tbl ∧
    (storeDraw d t2 (storeDraw d t1 tbl)).map drawRowData =
      (storeDraw d t1 tbl).map drawRowData := by
  refine ⟨storeDraw_absorb d t1 t2 tbl, storeDraw_absorb d t1 t1 tbl, ?_⟩
  rw [storeDraw_absorb d t1 t2 tbl]
  exact storeDraw_data_time_irrelevant d t2 t1 tbl

/-! ## C6: which subscribers a processed draw notifies -/

theorem notifyEligible_iff (n : Nat) (s : SubscriberRow) :
    notifyEligible n s = true ↔
      (s.status = "verified" ∧
       (s.last_notified_draw = none ∨
        ∃ k, s.last_notified_draw = some k ∧ k < n)) := by
  unfold notifyEligible
  cases h : s.last_notified_draw <;>
    simp [h, Bool.and_eq_true, beq_iff_eq, decide_eq_true_iff]

/-- A single-subscriber row whose last notified draw is `k`. -/
def c6Sub (k : Nat) : SubscriberRow :=
  ⟨1, "aabbccddee", "ana@example.com", "verified", none, "c0", some "v0", some k⟩

/-- A store with one bolão targeting `target` and the one subscriber
`c6Sub lastk`. -/
def c6Store (target lastk : Nat) : Store :=
  ⟨[⟨"aabbccddee", "", target⟩], [], [c6Sub lastk]⟩

/-- C6.  The notification step selects a subscriber for a processed draw
with number `n` exactly when the subscriber is verified, belongs to a bolão
whose target draw number equals `n`, and its `last_notified_draw` is null
or strictly below `n`.  In particular a subscriber with
`last_notified_draw = 100` is not selected when draw 100 is processed again
and is selected when draw 101 is processed. -/
theorem c6_selection_characterisation (st : Store) (n : Nat)
    (s : SubscriberRow) :
    (s ∈ selectedSubscribers st n ↔
      s ∈ st.subscribers ∧ s.status = "verified" ∧
      (∃ b ∈ st.boloes, b.draw_number = n ∧ s.bolao_id = b.id) ∧
      (s.last_notified_draw = none ∨
       ∃ k, s.last_notified_draw = some k ∧ k < n)) ∧
    (c6Sub 100 ∉ selectedSubscribers (c6Store 100 100) 100) ∧
    (c6Sub 100 ∈ selectedSubscribers (c6Store 101 100) 101) := by
  refine ⟨?_, by decide, by decide⟩
  unfold selectedSubscribers pendingSubscribersQuery
  simp only [List.mem_flatMap, List.mem_filter, Bool.and_eq_true, beq_iff_eq,
    notifyEligible_iff]
  constructor
  · rintro ⟨b, ⟨hb, hbn⟩, hs, hsb, hstat, hlast⟩
    exact ⟨hs, hstat, ⟨b, hb, hbn, hsb⟩, hlast⟩
  · rintro ⟨hs, hstat, ⟨b, hb, hbn, hsb⟩, hlast⟩
    exact ⟨b, ⟨hb, hbn⟩, hs, hsb, hstat, hlast⟩

/-- Concrete instance of C6's characterisation: the eligible subscriber of
the worked store is selected for draw 101. -/
theorem c6_selection_witness :
    c6Sub 100 ∈ selectedSubscribers (c6Store 101 100) 101 :=
  (c6_selection_characterisation (c6Store 101 100) 101 (c6Sub 100)).1.mpr
    ⟨by decide, by decide, ⟨⟨"aabbccddee", "", 101⟩, by decide, by decide,
      by decide⟩, by decide⟩

/-! ## C7: a failed send leaves the subscriber row untouched -/

@[simp]
theorem setNotified_id (n : Nat) (r : SubscriberRow) :
    (setNotified n r).id = r.id := rfl

@[simp]
theorem setNotified_idem (n : Nat) (r : SubscriberRow) :
    setNotified n (setNotified n r) = setNotified n r := rfl

/-- Closed form of the send loop: a subscriber row acquires
`last_notified_draw = n` exactly when some subscriber in the processed list
with that row's id had a successful send; all other rows pass through
unchanged, and every subscriber in the list is processed regardless of
earlier failures. -/
theorem notifyLoop_eq (n : Nat) (sendOk : SubscriberRow → Bool)
    (subs rows : List SubscriberRow) :
    notifyLoop n sendOk subs rows =
      rows.map (fun r =>
        if subs.any (fun t => sendOk t && t.id == r.id) then
          setNotified n r
        else r) := by
  induction subs generalizing rows with
  | nil => simp [notifyLoop]
  | cons t rest ih =>
    show notifyLoop n sendOk rest
        (if sendOk t then markNotified n t.id rows else rows) = _
    by_cases hst : sendOk t = true
    · rw [if_pos hst, ih, markNotified, List.map_map]
      apply List.map_congr_left
      intro r _
      simp only [Function.comp_apply]
      by_cases hid : (t.id == r.id) = true
      · have hid' : r.id = t.id := by
          simp only [beq_iff_eq] at hid
          exact hid.symm
        simp [hid, hid', hst, List.any_cons]
      · have hid' : ¬ r.id = t.id := by
          simp only [beq_iff_eq] at hid
          exact fun h => hid h.symm
        simp [hid, hid', hst, List.any_cons]
    · have hst' : sendOk t = false := by
        cases hb : sendOk t
        · rfl
        · exact absurd hb hst
      rw [if_neg hst, ih]
      apply List.map_congr_left
      intro r _
      simp [List.any_cons, hst']

/-- C7.  If the mail send fails for a subscriber (and for any duplicate of
its row id in the processed list), then: the subscriber's table row passes
through the loop unchanged; every row carrying that id after the loop was
already there before; subscribers with successful sends are still marked
notified wherever they sit in the list (the loop continues past the
failure); and a row of the failing subscriber that the pending query
selected before the loop is still selected by the same query afterwards,
so a future tick retries it. -/
theorem c7_failed_send_is_retried (n : Nat) (sendOk : SubscriberRow → Bool)
    (subs rows : List SubscriberRow) (s : SubscriberRow)
    (hs : s ∈ subs) (hfail : ∀ t ∈ subs, t.id = s.id → sendOk t = false) :
    sendOk s = false ∧
    (∀ r ∈ rows, r.id = s.id → r ∈ notifyLoop n sendOk subs rows) ∧
    (∀ r ∈ notifyLoop n sendOk subs rows, r.id = s.id → r ∈ rows) ∧
    (∀ t ∈ subs, sendOk t = true → ∀ r ∈ rows, r.id = t.id →
      setNotified n r ∈ notifyLoop n sendOk subs rows) ∧
    (∀ bolaoId, ∀ r ∈ pendingSubscribersQuery rows bolaoId n, r.id = s.id →
      r ∈ pendingSubscribersQuery (notifyLoop n sendOk subs rows) bolaoId n) := by
  have hanyfalse : ∀ r : SubscriberRow, r.id = s.id →
      (subs.any (fun t => sendOk t && t.id == r.id)) = false := by
    intro r hr
    rw [List.any_eq_false]
    intro t ht
    rw [Bool.and_eq_true, beq_iff_eq, hr]
    rintro ⟨hok, hid⟩
    rw [hfail t ht hid] at hok
    cases hok
  have hkeep : ∀ r ∈ rows, r.id = s.id → r ∈ notifyLoop n sendOk subs rows := by
    intro r hr hid
    rw [notifyLoop_eq]
    refine List.mem_map.mpr ⟨r, hr, ?_⟩
    rw [hanyfalse r hid]
    simp
  refine ⟨hfail s hs rfl, hkeep, ?_, ?_, ?_⟩
  · intro r hr hid
    rw [notifyLoop_eq] at hr
    rcases List.mem_map.mp hr with ⟨r0, hr0, heq⟩
    by_cases hc : (subs.any (fun t => sendOk t && t.id == r0.id)) = true
    · rw [if_pos hc] at heq
      have hr0id : r0.id = s.id := by rw [← hid, ← heq]; rfl
      rw [hanyfalse r0 hr0id] at hc
      cases hc
    · rw [if_neg hc] at heq
      rw [← heq]
      exact hr0
  · intro t ht hok r hr hid
    rw [notifyLoop_eq]
    refine List.mem_map.mpr ⟨r, hr, ?_⟩
    rw [if_pos (List.any_eq_true.mpr ⟨t, ht, ?_⟩)]
    rw [Bool.and_eq_true, beq_iff_eq, hid, hok]
    exact ⟨rfl, rfl⟩
  · intro bolaoId r hr hid
    rcases List.mem_filter.mp hr with ⟨hmem, hpred⟩
    exact List.mem_filter.mpr ⟨hkeep r hmem hid, hpred⟩

/-- A verified subscriber row pending notification for draw 101. -/
def c7Sub : SubscriberRow :=
  ⟨7, "aabbccddee", "bo@example.com", "verified", none, "c0", some "v0", some 100⟩

/-- Concrete instance of C7: when the only send fails, the row survives the
loop unchanged. -/
theorem c7_failed_send_witness :
    c7Sub ∈ notifyLoop 101 (fun _ => false) [c7Sub] [c7Sub] :=
  (c7_failed_send_is_retried 101 (fun _ => false) [c7Sub] [c7Sub] c7Sub
    (by decide) (fun _ _ _ => rfl)).2.1 c7Sub (by decide) rfl

/-! ## C8: subscriber status transitions

The lifecycle of the single `bolao_subscribers` row of one (bolão, email)
pair, as driven by the three operations that touch its columns:
the subscribe route's upsert (`part_001:1262-1272`), the confirm route's
conditional update (`part_001:1307-1321`), and the notifier's
`last_notified_draw` update after a successful send
(`part_001:762-810`). -/

/-- The mutable columns of one subscriber row (identity columns omitted). -/
structure SubState where
  status : String
  verification_token : Option String
  created_at : String
  verified_at : Option String
  last_notified_draw : Option Nat
deriving DecidableEq

/-- The operations of the lifecycle. -/
inductive SubOp where
  | subscribe (token createdAt : String)
  | confirm (token verifiedAt : String)
  | notify (drawNumber : Nat)
deriving DecidableEq

/-- One operation on the row of a fixed (bolão, email) pair.
`subscribe` is `INSERT ... ON CONFLICT(bolao_id, email) DO UPDATE SET
status = 'pending', verification_token = ..., created_at = ...,
verified_at = NULL, last_notified_draw = NULL`: insert and reset write the
same column values, so both arms produce the same row state.  `confirm`
fires only when the stored verification token matches the link's token.
`notify` marks the row notified after a successful send, which the
notifier attempts only for verified rows still pending for the draw. -/
def applyOp (op : SubOp) (st : Option SubState) : Option SubState :=
  match op, st with
  | .subscribe tok t, _ =>
      some { status := "pending", verification_token := some tok,
             created_at := t, verified_at := none, last_notified_draw := none }
  | .confirm tok t, some s =>
      if s.verification_token = some tok then
        some { s with status := "verified", verification_token := none,
                      verified_at := some t }
      else some s
  | .confirm _ _, none => none
  | .notify n, some s =>
      if s.status == "verified" &&
          (match s.last_notified_draw with
           | none => true
           | some k => decide (k < n)) then
        some { s with last_notified_draw := some n }
      else some s
  | .notify _, none => none

/-- A sequence of operations applied in order. -/
def applyOps (ops : List SubOp) (st : Option SubState) : Option SubState :=
  ops.foldl (fun s op => applyOp op s) st

/-- C8 counterexample.  Status transitions are not monotonic over all four
operations: subscribe → confirm yields a verified row, and a subsequent
re-subscribe resets the very same row back to pending (the upsert's
`DO UPDATE SET status = 'pending'`). -/
theorem c8_counterexample :
    (applyOps [SubOp.subscribe "t1" "c1", SubOp.confirm "t1" "v1"]
        none).map SubState.status = some "verified" ∧
    (applyOps [SubOp.subscribe "t1" "c1", SubOp.confirm "t1" "v1",
        SubOp.subscribe "t2" "c2"] none).map SubState.status =
      some "pending" := by
  constructor <;> rfl

theorem applyOp_keeps_verified (op : SubOp) (st : Option SubState)
    (hnos : ∀ tok t, op ≠ SubOp.subscribe tok t)
    (h : st.map SubState.status = some "verified") :
    (applyOp op st).map SubState.status = some "verified" := by
  cases op with
  | subscribe tok t => exact absurd rfl (hnos tok t)
  | confirm tok t =>
    cases st with
    | none => simp at h
    | some s =>
      by_cases hc : s.verification_token = some tok
      · simp only [applyOp, if_pos hc]
        rfl
      · simp only [applyOp, if_neg hc]
        simpa using h
  | notify n =>
    cases st with
    | none => simp at h
    | some s =>
      simp only [applyOp]
      split_ifs with hc
      · simpa using h
      · simpa using h

/-- C8 (amended).  Once a subscriber row is verified, no sequence of
confirm and notify operations ever moves it back to pending — only the
subscribe upsert does, and that operation always leaves the row pending
(the data-model's stated reset on re-subscription). -/
theorem c8_status_monotonic_amended (ops : List SubOp) (st : Option SubState)
    (hver : st.map SubState.status = some "verified")
    (hnosub : ∀ op ∈ ops, ∀ tok t, op ≠ SubOp.subscribe tok t) :
    (applyOps ops st).map SubState.status = some "verified" ∧
    ∀ (tok t : String) (st' : Option SubState),
      (applyOp (SubOp.subscribe tok t) st').map SubState.status =
        some "pending" := by
  refine ⟨?_, fun tok t st' => rfl⟩
  induction ops generalizing st with
  | nil => exact hver
  | cons op rest ih =>
    have h1 := applyOp_keeps_verified op st
      (hnosub op (List.mem_cons_self op rest)) hver
    exact ih (applyOp op st) h1
      (fun o ho => hnosub o (List.mem_cons_of_mem op ho))

/-- Concrete instance of the amended C8: a verified row stays verified
through a notify and a stray confirm. -/
theorem c8_monotonic_witness :
    (applyOps [SubOp.notify 101, SubOp.confirm "x" "v"]
        (some ⟨"verified", none, "c0", some "v0", some 100⟩)).map
      SubState.status = some "verified" :=
  (c8_status_monotonic_amended [SubOp.notify 101, SubOp.confirm "x" "v"]
    (some ⟨"verified", none, "c0", some "v0", some 100⟩) rfl
    (by
      intro op ho tok t
      rcases List.mem_cons.mp ho with rfl | ho2
      · simp
      · rcases List.mem_cons.mp ho2 with rfl | ho3
        · simp
        · cases ho3)).1

/-! ## C9: `parseNumbers`

`parseNumbers(input)` (`part_001:360-382`) replaces every character other
than digits, whitespace and `,;-` by a space, splits on runs of
separators, and converts each token with `Number`.  Since every non-digit
character is a separator after the replacement, the tokens are exactly the
maximal digit runs of the input, and every token is a non-empty digit
string, so `Number` yields a natural number and the `Number.isNaN` branch
of the source is unreachable.  Values above 60 are rejected by the range
check, so the `Nat` model agrees with JS floating point on every outcome.
The JS `Set` keeps first occurrences while `List.dedup` keeps last ones;
both produce the same distinct values, which is all the subsequent
length check, range check and ascending sort depend on. -/

/-- Numeric value of a decimal digit character. -/
def digitVal (c : Char) : Nat := c.toNat - '0'.toNat

/-- `Number` applied to a non-empty digit token. -/
def tokenVal (cs : List Char) : Nat :=
  cs.foldl (fun n c => n * 10 + digitVal c) 0

/-- Splitter for the maximal digit runs: `cur` is the reversed current run
of digits; a non-digit character closes the current run, mirroring the
split on separator runs (after the replace, every non-digit character is a
separator). -/
def splitRuns (cur : List Char) : List Char → List (List Char)
  | [] => if cur.isEmpty then [] else [cur.reverse]
  | c :: cs =>
      if c.isDigit then splitRuns (c :: cur) cs
      else if cur.isEmpty then splitRuns [] cs
      else cur.reverse :: splitRuns [] cs

/-- The maximal runs of digit characters of a string: the tokens of
`parseNumbers` after replace/split/filter. -/
def digitRuns (cs : List Char) : List (List Char) := splitRuns [] cs

/-- The numeric values of the tokens of the input string. -/
def tokenValues (s : String) : List Nat := (digitRuns s.data).map tokenVal

/-- `String(value).padStart(2, "0")`: decimal representation, prefixed
with one zero when it is a single character. -/
def pad2 (n : Nat) : String :=
  if (toString n).length < 2 then "0" ++ toString n else toString n

/-- `parseNumbers(input)` (`part_001:360-382`): distinct token values,
the 6..15 count check, the 1..60 range check, then ascending sort and
two-character zero padding. -/
def parseNumbers (input : String) : Except String (List String) :=
  if (tokenValues input).dedup.length < 6 ∨
      15 < (tokenValues input).dedup.length then
    Except.error "Informe entre 6 e 15 dezenas."
  else if (tokenValues input).dedup.any
      (fun v => decide (v < 1) || decide (60 < v)) then
    Except.error "As dezenas devem estar entre 1 e 60."
  else
    Except.ok
      ((List.insertionSort (fun a b => a ≤ b) (tokenValues input).dedup).map
        pad2)

/-- Strict lexicographic order on character lists by code point, the
mathematical order against which the padding claim is stated. -/
def lexLt : List Char → List Char → Bool
  | [], [] => false
  | [], _ :: _ => true
  | _ :: _, [] => false
  | a :: as, b :: bs =>
      if a.val < b.val then true
      else if b.val < a.val then false
      else lexLt as bs

theorem pad2_length_eq_two : ∀ v ∈ Finset.range 61, (pad2 v).length = 2 := by
  decide

theorem pad2_lexLt : ∀ a ∈ Finset.range 61, ∀ b ∈ Finset.range 61,
    a < b → lexLt (pad2 a).data (pad2 b).data = true := by
  decide

theorem chain_lexLt_map_pad2 (l : List Nat) (hb : ∀ v ∈ l, v < 61)
    (hc : List.Chain' (fun a b => a < b) l) :
    List.Chain' (fun x y => lexLt x.data y.data = true) (l.map pad2) := by
  induction l with
  | nil => simp
  | cons a l ih =>
    cases l with
    | nil => simp
    | cons b l2 =>
      rcases List.chain'_cons.mp hc with ⟨hab, hrest⟩
      rw [List.map_cons, List.map_cons, List.chain'_cons]
      refine ⟨?_, ?_⟩
      · exact pad2_lexLt a
          (Finset.mem_range.mpr (hb a (List.mem_cons_self a _)))
          b (Finset.mem_range.mpr (hb b (List.mem_cons_of_mem a
            (List.mem_cons_self b l2)))) hab
      · have hres := ih (fun v hv => hb v (List.mem_cons_of_mem a hv)) hrest
        rw [List.map_cons] at hres
        exact hres

/-- C9.  `parseNumbers` succeeds exactly when the input's distinct token
values number between 6 and 15 and all lie in `[1, 60]`; on success it
returns exactly those distinct values, sorted strictly ascending, each
rendered as a two-character zero-padded string, and the rendered list is
itself in strict lexicographic order (padding makes lexicographic and
numeric order agree). -/
theorem c9_parseNumbers_spec (input : String) :
    ((∃ ns, parseNumbers input = Except.ok ns) ↔
      (6 ≤ (tokenValues input).dedup.length ∧
       (tokenValues input).dedup.length ≤ 15 ∧
       ∀ v ∈ tokenValues input, 1 ≤ v ∧ v ≤ 60)) ∧
    ∀ ns, parseNumbers input = Except.ok ns →
      ∃ us : List Nat,
        us.Perm (tokenValues input).dedup ∧
        List.Sorted (fun a b => a < b) us ∧
        (∀ v ∈ us, 1 ≤ v ∧ v ≤ 60) ∧
        ns = us.map pad2 ∧
        (∀ x ∈ ns, x.length = 2) ∧
        List.Chain' (fun x y => lexLt x.data y.data = true) ns := by
  by_cases h1 : (tokenValues input).dedup.length < 6 ∨
      15 < (tokenValues input).dedup.length
  · have he : parseNumbers input = Except.error "Informe entre 6 e 15 dezenas." := by
      unfold parseNumbers
      rw [if_pos h1]
    constructor
    · constructor
      · rintro ⟨ns, hns⟩
        rw [he] at hns
        cases hns
      · rintro ⟨ha, hb, -⟩
        omega
    · intro ns hns
      rw [he] at hns
      cases hns
  · by_cases h2 : ((tokenValues input).dedup.any
        (fun v => decide (v < 1) || decide (60 < v))) = true
    · have he : parseNumbers input =
          Except.error "As dezenas devem estar entre 1 e 60." := by
        unfold parseNumbers
        rw [if_neg h1, if_pos h2]
      rcases List.any_eq_true.mp h2 with ⟨v, hv, hvp⟩
      simp only [Bool.or_eq_true, decide_eq_true_eq] at hvp
      constructor
      · constructor
        · rintro ⟨ns, hns⟩
          rw [he] at hns
          cases hns
        · rintro ⟨-, -, hall⟩
          have := hall v (List.mem_dedup.mp hv)
          omega
      · intro ns hns
        rw [he] at hns
        cases hns
    · have h2f : ((tokenValues input).dedup.any
          (fun v => decide (v < 1) || decide (60 < v))) = false := by
        cases hb : ((tokenValues input).dedup.any
            (fun v => decide (v < 1) || decide (60 < v)))
        · rfl
        · exact absurd hb h2
      have hok : parseNumbers input = Except.ok
          ((List.insertionSort (fun a b => a ≤ b)
            (tokenValues input).dedup).map pad2) := by
        unfold parseNumbers
        rw [if_neg h1, if_neg h2]
      have hrange : ∀ v ∈ (tokenValues input).dedup, 1 ≤ v ∧ v ≤ 60 := by
        intro v hv
        have hfv := List.any_eq_false.mp h2f v hv
        simp only [Bool.or_eq_true, decide_eq_true_eq, not_or, not_lt] at hfv
        omega
      constructor
      · constructor
        · intro _
          refine ⟨by omega, by omega, fun v hv => ?_⟩
          exact hrange v (List.mem_dedup.mpr hv)
        · intro _
          exact ⟨_, hok⟩
      · intro ns hns
        rw [hok] at hns
        injection hns with heq
        have hperm := List.perm_insertionSort (fun a b => a ≤ b)
          (tokenValues input).dedup
        have hsortedle := List.sorted_insertionSort (fun a b => a ≤ b)
          (tokenValues input).dedup
        have hnodup : (List.insertionSort (fun a b => a ≤ b)
            (tokenValues input).dedup).Nodup :=
          hperm.nodup_iff.mpr (List.nodup_dedup _)
        have hsorted := List.Sorted.lt_of_le hsortedle hnodup
        have husrange : ∀ v ∈ List.insertionSort (fun a b => a ≤ b)
            (tokenValues input).dedup, 1 ≤ v ∧ v ≤ 60 :=
          fun v hv => hrange v (hperm.subset hv)
        refine ⟨List.insertionSort (fun a b => a ≤ b)
          (tokenValues input).dedup, hperm, hsorted, husrange, heq.symm,
          ?_, ?_⟩
        · intro x hx
          rw [← heq] at hx
          rcases List.mem_map.mp hx with ⟨v, hvmem, rfl⟩
          exact pad2_length_eq_two v
            (Finset.mem_range.mpr (by have := husrange v hvmem; omega))
        · rw [← heq]
          exact chain_lexLt_map_pad2 _
            (fun v hv => by have := husrange v hv; omega)
            hsorted.chain'

/-- Concrete instance of C9: the spec's end-to-end example line parses to
the six padded strings 04 08 15 16 23 42. -/
theorem c9_parseNumbers_witness :
    (∃ ns, parseNumbers "4 8 15 16 23 42" = Except.ok ns) ∧
    parseNumbers "4 8 15 16 23 42" =
      Except.ok ["04", "08", "15", "16", "23", "42"] :=
  ⟨(c9_parseNumbers_spec "4 8 15 16 23 42").1.mpr
      ⟨by decide, by decide, by decide⟩,
    by rfl⟩

/-! ## C10: `insertGames` is transactional

`insertGames(bolaoId, games, onComplete)` (`part_001:406-427`) opens a
transaction, inserts the games one by one, and issues `COMMIT` after the
last insert or `ROLLBACK` on the first insert error.  The model keeps the
committed table and the in-transaction working copy explicit: `work`
accumulates the pending inserts and the committed table becomes `work`
only at `COMMIT`, while `ROLLBACK` restores the original table.  The
`failAt` oracle tells which insert statement errors (the sqlite callback's
`err`). -/

/-- A `games` row as written by `insertGames` (the generated primary key
is not modelled; `numbers` keeps the deserialised JSON array). -/
structure GameRow where
  bolao_id : String
  numbers : List String
  created_at : String
deriving DecidableEq

/-- The `insertNext(index)` recursion of `insertGames`: on success of all
inserts the commit publishes the working copy, on the first error the
rollback restores `orig`.  The second component reports commit (`true`)
versus rollback (`false`). -/
def insertNext (orig : List GameRow) (mk : List String → GameRow)
    (failAt : Nat → Bool) : Nat → List (List String) → List GameRow →
    List GameRow × Bool
  | _, [], work => (work, true)
  | i, g :: gs, work =>
      if failAt i then (orig, false)
      else insertNext orig mk failAt (i + 1) gs (work ++ [mk g])

/-- `insertGames(bolaoId, games, onComplete)` (`part_001:406-427`). -/
def insertGames (bolaoId createdAt : String) (games : List (List String))
    (failAt : Nat → Bool) (table : List GameRow) : List GameRow × Bool :=
  insertNext table (fun g => ⟨bolaoId, g, createdAt⟩) failAt 0 games table

theorem insertNext_ok (orig : List GameRow) (mk : List String → GameRow)
    (failAt : Nat → Bool) :
    ∀ (gs : List (List String)) (i : Nat) (work : List GameRow),
      (∀ j, j < gs.length → failAt (i + j) = false) →
      insertNext orig mk failAt i gs work = (work ++ gs.map mk, true) := by
  intro gs
  induction gs with
  | nil =>
    intro i work _
    simp [insertNext]
  | cons g gs ih =>
    intro i work hall
    have h0 : failAt i = false := by
      have := hall 0 (Nat.succ_pos _)
      rwa [Nat.add_zero] at this
    have hrest : ∀ j, j < gs.length → failAt (i + 1 + j) = false := by
      intro j hj
      have := hall (j + 1) (by simp only [List.length_cons]; omega)
      rwa [show i + (j + 1) = i + 1 + j by omega] at this
    simp only [insertNext, h0, Bool.false_eq_true, if_false]
    rw [ih (i + 1) (work ++ [mk g]) hrest]
    simp

theorem insertNext_fail (orig : List GameRow) (mk : List String → GameRow)
    (failAt : Nat → Bool) :
    ∀ (gs : List (List String)) (i : Nat) (work : List GameRow),
      (∃ j, j < gs.length ∧ failAt (i + j) = true) →
      insertNext orig mk failAt i gs work = (orig, false) := by
  intro gs
  induction gs with
  | nil =>
    rintro i work ⟨j, hj, -⟩
    cases hj
  | cons g gs ih =>
    rintro i work ⟨j, hj, hfj⟩
    by_cases hf : failAt i = true
    · simp [insertNext, hf]
    · have hf' : failAt i = false := by
        cases hb : failAt i
        · rfl
        · exact absurd hb hf
      cases j with
      | zero =>
        rw [Nat.add_zero] at hfj
        exact absurd hfj hf
      | succ j =>
        simp only [insertNext, hf', Bool.false_eq_true, if_false]
        refine ih (i + 1) (work ++ [mk g]) ⟨j, ?_, ?_⟩
        · simp only [List.length_cons] at hj
          omega
        · rwa [show i + 1 + j = i + (j + 1) by omega]

/-- C10.  `insertGames` is atomic: the resulting table is either the
original one (rollback) or the original followed by every game of the
batch (commit); it commits the full batch when no insert errors, and rolls
the table back to its original contents when any insert in the batch
errors — no proper subset of the batch is ever persisted. -/
theorem c10_insertGames_atomic (bolaoId createdAt : String)
    (games : List (List String)) (failAt : Nat → Bool)
    (table : List GameRow) :
    ((insertGames bolaoId createdAt games failAt table).1 = table ∨
     (insertGames bolaoId createdAt games failAt table).1 =
       table ++ games.map (fun g => ⟨bolaoId, g, createdAt⟩)) ∧
    ((∀ j, j < games.length → failAt j = false) →
      insertGames bolaoId createdAt games failAt table =
        (table ++ games.map (fun g => ⟨bolaoId, g, createdAt⟩), true)) ∧
    ((∃ j, j < games.length ∧ failAt j = true) →
      insertGames bolaoId createdAt games failAt table = (table, false)) := by
  have hok : (∀ j, j < games.length → failAt j = false) →
      insertGames bolaoId createdAt games failAt table =
        (table ++ games.map (fun g => ⟨bolaoId, g, createdAt⟩), true) := by
    intro hall
    unfold insertGames
    refine insertNext_ok table _ failAt games 0 table ?_
    intro j hj
    rw [Nat.zero_add]
    exact hall j hj
  have hfail : (∃ j, j < games.length ∧ failAt j = true) →
      insertGames bolaoId createdAt games failAt table = (table, false) := by
    rintro ⟨j, hj, hfj⟩
    unfold insertGames
    refine insertNext_fail table _ failAt games 0 table ⟨j, hj, ?_⟩
    rwa [Nat.zero_add]
  refine ⟨?_, hok, hfail⟩
  by_cases hall : ∀ j, j < games.length → failAt j = false
  · right
    rw [hok hall]
  · left
    have hex : ∃ j, j < games.length ∧ failAt j = true := by
      push_neg at hall
      rcases hall with ⟨j, hj, hfj⟩
      exact ⟨j, hj, by
        cases hb : failAt j
        · exact absurd hb hfj
        · rfl⟩
    rw [hfail hex]

/-- Concrete instance of C10: a two-game batch commits fully with no
errors and rolls back completely when the second insert errors. -/
theorem c10_insertGames_witness :
    insertGames "aabbccddee" "c0" [["01"], ["02"]] (fun _ => false) [] =
      ([⟨"aabbccddee", ["01"], "c0"⟩, ⟨"aabbccddee", ["02"], "c0"⟩], true) ∧
    insertGames "aabbccddee" "c0" [["01"], ["02"]] (fun i => i == 1) [] =
      ([], false) :=
  ⟨(c10_insertGames_atomic "aabbccddee" "c0" [["01"], ["02"]]
      (fun _ => false) []).2.1 (fun _ _ => rfl),
    (c10_insertGames_atomic "aabbccddee" "c0" [["01"], ["02"]]
      (fun i => i == 1) []).2.2 ⟨1, by decide, rfl⟩⟩
